import Mathlib

/-!
Verification development for the Nuvoton M55M1 Key Store (KS) driver,
`src/m55m1x/StdDriver/src/ks.c`.

The driver is a register-sequencing shim: every operation polls a busy
flag, programs a metadata register, clears latched status flags, strobes a
command into a control register, busy-waits with a bounded countdown, and
checks a latched error flag.  The register block is embedded as structured
values (one record field per hardware bit-field); the hardware's responses
to the driver's polls are an environment (an oracle indexed by a poll
counter), and every register write the driver performs is recorded in a
trace, so that frame properties ("no register was touched") are provable.

The register-layout header (`ks.h` and `ks_reg.h`) is not part of this
repository snapshot; the constants it defines are modelled from the spec
where needed, each marked `Modelled from the spec:` in its doc comment.
-/

set_option maxRecDepth 4000

namespace KSdrv

/-- The hardware status register `KS->STS`, one field per flag the driver
reads: `BUSY`, the latched error flag `EIF`, `INITDONE`, and the SRAM
inversion flag `RAMINV`. -/
structure STSval where
  busy : Bool
  eif : Bool
  initdone : Bool
  raminv : Bool
deriving DecidableEq, Repr

/-- The control register `KS->CTL` as a record of its fields: the opcode
field, the `START` strobe, the `CONT` continuation bit, the `INIT` bit,
and the software-owned `SILENT` and `SCMB` (scramble) mode bits. -/
structure CTLval where
  op : Nat
  start : Bool
  cont : Bool
  ini : Bool
  silent : Bool
  scmb : Bool
deriving DecidableEq, Repr

/-- Key Store memory types, from the driver's `KS_MEM_Type`. -/
inductive KS_MEM_Type
  | KS_SRAM
  | KS_FLASH
  | KS_OTP
deriving DecidableEq, Repr

/-- Modelled from the spec: the command opcodes programmed into the
control register.  Their numeric field encodings live in the missing
`ks.h`; only their distinctness matters to the driver logic.  A raw
control-register constant (as in `KS_Open`'s `INIT|START` write) leaves
the opcode field zero, which is the `READ` encoding. -/
def KS_OP_READ : Nat := 0

/-- Modelled from the spec: `WRITE` opcode (see `KS_OP_READ`). -/
def KS_OP_WRITE : Nat := 1

/-- Modelled from the spec: `ERASE` opcode (see `KS_OP_READ`). -/
def KS_OP_ERASE : Nat := 2

/-- Modelled from the spec: `ERASE_ALL` opcode (see `KS_OP_READ`). -/
def KS_OP_ERASE_ALL : Nat := 3

/-- Modelled from the spec: `REVOKE` opcode (see `KS_OP_READ`). -/
def KS_OP_REVOKE : Nat := 4

/-- Modelled from the spec: `REMAN` (anti-remanence) opcode (see
`KS_OP_READ`). -/
def KS_OP_REMAN : Nat := 5

/-- Modelled from the spec: `LOCK` opcode (see `KS_OP_READ`). -/
def KS_OP_LOCK : Nat := 7

/-- Modelled from the spec: the bit position of the 5-bit size-class field
of a metadata word (`KS_METADATA_SIZE_Pos`, defined in the missing
header).  The spec fixes the field's width at five bits (codes decode to
0..31); the claims quantify over size-class codes, so they are insensitive
to the position itself. -/
def KS_METADATA_SIZE_Pos : Nat := 8

/-- The size-class code carried by a metadata word:
`(u32Meta & KS_METADATA_SIZE_Msk) >> KS_METADATA_SIZE_Pos` in the source,
a 5-bit field. -/
def sizeField (u32Meta : Nat) : Nat :=
  u32Meta / 2 ^ KS_METADATA_SIZE_Pos % 32

/-- A value written into the metadata register `KS->METADATA`, recorded
structurally (the composition the source performs with `<<` and `|`; the
field positions live in the missing header):
`forKey` is `(mem << DST_Pos) | KS_TOMETAKEY(idx)`,
`forWrite` is `(mem << DST_Pos) | u32Meta`,
`forWriteOTP` is `(KS_OTP << DST_Pos) | u32Meta | KS_TOMETAKEY(idx)`,
`forMem` is `(mem << DST_Pos)` alone. -/
inductive MetaVal
  | forKey (mem : KS_MEM_Type) (idx : Int)
  | forWrite (mem : KS_MEM_Type) (u32Meta : Nat)
  | forWriteOTP (u32Meta : Nat) (idx : Int)
  | forMem (mem : KS_MEM_Type)
deriving DecidableEq, Repr

/-- One register write performed by the driver: a metadata-register write,
the status-clearing write `KS->STS = EIF|IF`, a control-register write, or
a write of one word into the 8-word key window `KS->KEY[i]`. -/
inductive RegWrite
  | wMETADATA (v : MetaVal)
  | wSTSclear
  | wCTL (c : CTLval)
  | wKEY (i : Nat) (v : Nat)
deriving DecidableEq, Repr

/-- The hardware environment a driver call runs against.
`sts t` is the value the status register presents at the driver's `t`-th
status read (reads of `KS->STS` are numbered from 0 within one call);
`key c i` is the word `KS->KEY[i]` presents while the `c`-th read chunk's
data sits in the window; `ctl0` is the control register's contents when
the call starts (the driver reads it back to preserve mode bits); and
`echoIdx` is the key-index field the hardware has latched into
`KS->METADATA` when `KS_Write` reads it back at the end. -/
structure KSEnv where
  sts : Nat → STSval
  key : Nat → Nat → Nat
  ctl0 : CTLval
  echoIdx : Nat

/-- Driver call outcomes.  The source returns `int32_t` codes
(`KS_OK`/index on success, negative `KS_ERR_*` codes on failure, defined
in the missing header); the embedding keeps them symbolic:
`ok v` is success with result `v` (`KS_OK = 0`, a slot index, or the
inversion flag), and the four error kinds are `errBusy`, `errTimeout`,
`errFail` (hardware-reported failure) and `errParameter`. -/
inductive KSResult
  | ok (v : Int)
  | errBusy
  | errTimeout
  | errFail
  | errParameter
deriving DecidableEq, Repr

/-- Modelled from the spec: the bounded busy-wait countdown budget
`KS_TIMEOUT`.  The header defining its numeric value is not in the
repository; the spec only requires a fixed positive iteration count. -/
def KS_TIMEOUT : Nat := 100

/-- What one driver call did: its return value, the register writes it
performed in order, and (for `KS_Read`) the `(index, value)` stores into
the caller's output buffer in order. -/
structure OpRun where
  result : KSResult
  writes : List RegWrite
  buf : List (Nat × Nat)
deriving DecidableEq, Repr

/-- The driver's busy-wait loop
`while (KS->STS & KS_STS_BUSY_Msk) { if (--cnt == 0) return KS_ERR_TIMEOUT; }`.
`t` is the index of the next status read; the result is `some t'` (the
next unused read index) when the busy flag was observed clear within the
budget, and `none` on timeout.  (With `cnt = 0` the source's decrement
would wrap and poll for another 2^32 iterations; every call site passes
`KS_TIMEOUT ≥ 1`, so that case is modelled as exhaustion.) -/
def busyWaitLoop (env : KSEnv) : Nat → Nat → Option Nat
  | t, 0 => if (env.sts t).busy = true then none else some (t + 1)
  | t, cnt + 1 =>
    if (env.sts t).busy = true then
      if cnt = 0 then none else busyWaitLoop env (t + 1) cnt
    else some (t + 1)

/-- `KS_Open`'s second loop,
`while ((KS->STS & KS_STS_INITDONE_Msk) == 0) { if (--cnt == 0) return KS_ERR_TIMEOUT; }`,
with the same countdown shape as `busyWaitLoop`. -/
def initWaitLoop (env : KSEnv) : Nat → Nat → Option Nat
  | t, 0 => if (env.sts t).initdone = true then some (t + 1) else none
  | t, cnt + 1 =>
    if (env.sts t).initdone = true then some (t + 1)
    else if cnt = 0 then none else initWaitLoop env (t + 1) cnt

/-- `KS_Open` from `ks.c`: if `INITDONE` is clear, busy-wait, strobe
`INIT|START` into the control register (a raw constant write: opcode field
zero, all mode bits cleared), wait for `INITDONE`, and in every case
finish with a final busy-wait.  It performs no status-clearing write, no
metadata write, and no error-flag check. -/
def KS_Open (env : KSEnv) : OpRun :=
  if (env.sts 0).initdone = true then
    match busyWaitLoop env 1 KS_TIMEOUT with
    | none => ⟨KSResult.errTimeout, [], []⟩
    | some _ => ⟨KSResult.ok 0, [], []⟩
  else
    match busyWaitLoop env 1 KS_TIMEOUT with
    | none => ⟨KSResult.errTimeout, [], []⟩
    | some t1 =>
      match initWaitLoop env t1 KS_TIMEOUT with
      | none => ⟨KSResult.errTimeout, [RegWrite.wCTL ⟨0, true, false, true, false, false⟩], []⟩
      | some t2 =>
        match busyWaitLoop env t2 KS_TIMEOUT with
        | none => ⟨KSResult.errTimeout, [RegWrite.wCTL ⟨0, true, false, true, false, false⟩], []⟩
        | some _ => ⟨KSResult.ok 0, [RegWrite.wCTL ⟨0, true, false, true, false, false⟩], []⟩

/-- The 21-entry word-count table `au8CntTbl` from `KS_GetKeyWordCnt`. -/
def au8CntTbl : List Nat :=
  [4, 6, 6, 7, 8, 8, 8, 9, 12, 13, 16, 17, 18, 0, 0, 0, 32, 48, 64, 96, 128]

/-- `KS_GetKeyWordCnt` from `ks.c`: a pure table lookup (the source touches
no hardware register).  The C array access `au8CntTbl[sizeField]` has no
bounds check; an out-of-range size-class code reads out of bounds, which
the embedding makes explicit by returning `none` there. -/
def KS_GetKeyWordCnt? (u32Meta : Nat) : Option Nat :=
  au8CntTbl[sizeField u32Meta]?

/-- The signed reinterpretation `(int32_t)x` of an unsigned 32-bit value,
used by `KS_Read` on its `u32WordCnt` argument. -/
def toInt32 (n : Nat) : Int :=
  if n % 4294967296 < 2147483648 then ((n % 4294967296 : Nat) : Int)
  else ((n % 4294967296 : Nat) : Int) - 4294967296

/-- The control value `KS_Read` strobes for one chunk:
`u32Cont | KS_OP_READ | KS_CTL_START_Msk | (KS->CTL & (SILENT|SCMB))`. -/
def readCtl (cont : Bool) (s m : Bool) : CTLval :=
  ⟨KS_OP_READ, true, cont, false, s, m⟩

/-- The control value `KS_Write` strobes for one chunk:
`u32Cont | KS_OP_WRITE | KS_CTL_START_Msk | (KS->CTL & (SILENT|SCMB))`. -/
def writeCtl (cont : Bool) (s m : Bool) : CTLval :=
  ⟨KS_OP_WRITE, true, cont, false, s, m⟩

/-- The `do { ... } while (i32Cnt > 0)` body of `KS_Read`: clear status,
strobe the read command (preserving the silent/scramble bits of the
current control value `ctl`), busy-wait, copy `min(i32Cnt, 8)` words out
of the key window into the buffer at `offset`, then advance by 8 and
continue with the `CONT` bit set while words remain. -/
def readLoop (env : KSEnv) (cnt : Int) (offset : Nat) (cont : Bool)
    (chunk t : Nat) (ctl : CTLval) (ws : List RegWrite)
    (buf : List (Nat × Nat)) : OpRun :=
  let c := readCtl cont ctl.silent ctl.scmb
  let ws' := ws ++ [RegWrite.wSTSclear, RegWrite.wCTL c]
  match busyWaitLoop env t KS_TIMEOUT with
  | none => ⟨KSResult.errTimeout, ws', buf⟩
  | some t1 =>
    let m : Int := if 8 < cnt then 8 else cnt
    let buf' := buf ++ (List.range m.toNat).map fun i => (offset + i, env.key chunk i)
    if h : 8 < cnt then
      readLoop env (cnt - 8) (offset + 8) true (chunk + 1) t1 c ws' buf'
    else
      if (env.sts t1).eif = true then ⟨KSResult.errFail, ws', buf'⟩
      else ⟨KSResult.ok 0, ws', buf'⟩
termination_by cnt.toNat
decreasing_by
  simp_wf
  omega

/-- `KS_Read` from `ks.c`: entry busy check (return `KS_ERR_BUSY` at
once), metadata write, then the chunked read loop on
`(int32_t)u32WordCnt`. -/
def KS_Read (env : KSEnv) (eMemType : KS_MEM_Type) (i32KeyIdx : Int)
    (u32WordCnt : Nat) : OpRun :=
  if (env.sts 0).busy = true then ⟨KSResult.errBusy, [], []⟩
  else
    readLoop env (toInt32 u32WordCnt) 0 false 0 1 env.ctl0
      [RegWrite.wMETADATA (MetaVal.forKey eMemType i32KeyIdx)] []

/-- The `do { ... } while (i32Cnt > 0)` body of `KS_Write`: copy
`min(i32Cnt, 8)` words of the caller's buffer into the key window, clear
status, strobe the write command (preserving silent/scramble), busy-wait,
and continue with `CONT` set while words remain.  On success the source
returns `KS_TOKEYIDX(KS->METADATA)`, the index field the hardware echoed
into the metadata register. -/
def writeLoop (env : KSEnv) (au32Key : Nat → Nat) (cnt : Int) (offset : Nat)
    (cont : Bool) (t : Nat) (ctl : CTLval) (ws : List RegWrite) : OpRun :=
  let m : Int := if 8 < cnt then 8 else cnt
  let c := writeCtl cont ctl.silent ctl.scmb
  let ws' := ws ++ ((List.range m.toNat).map fun i => RegWrite.wKEY i (au32Key (offset + i)))
    ++ [RegWrite.wSTSclear, RegWrite.wCTL c]
  match busyWaitLoop env t KS_TIMEOUT with
  | none => ⟨KSResult.errTimeout, ws', []⟩
  | some t1 =>
    if h : 8 < cnt then
      writeLoop env au32Key (cnt - 8) (offset + 8) true t1 c ws'
    else
      if (env.sts t1).eif = true then ⟨KSResult.errFail, ws', []⟩
      else ⟨KSResult.ok (env.echoIdx : Int), ws', []⟩
termination_by cnt.toNat
decreasing_by
  simp_wf
  omega

/-- `KS_Write` from `ks.c`: entry busy check, metadata write, word count
by table lookup (`none` when the 5-bit size code indexes the 21-entry
table out of bounds, which is undefined in the source), the two
parameter checks (`i32Cnt == 0`, and OTP capped at 8 words), then the
chunked write loop. -/
def KS_Write (env : KSEnv) (eMemType : KS_MEM_Type) (u32Meta : Nat)
    (au32Key : Nat → Nat) : Option OpRun :=
  if (env.sts 0).busy = true then some ⟨KSResult.errBusy, [], []⟩
  else
    let ws := [RegWrite.wMETADATA (MetaVal.forWrite eMemType u32Meta)]
    match KS_GetKeyWordCnt? u32Meta with
    | none => none
    | some n =>
      if n = 0 then some ⟨KSResult.errParameter, ws, []⟩
      else if eMemType = KS_MEM_Type.KS_OTP ∧ 8 < n then
        some ⟨KSResult.errParameter, ws, []⟩
      else some (writeLoop env au32Key (n : Int) 0 false 1 env.ctl0 ws)

/-- The 7-entry OTP word-count table local to `KS_WriteOTP`. -/
def otpCntTbl : List Nat := [4, 6, 6, 7, 8, 8, 8]

/-- Modelled from the spec: the size-class code of `KS_META_256`
(`KS_META_256 >> KS_METADATA_SIZE_Pos`).  The macro lives in the missing
header; per the spec, `KS_WriteOTP`'s 7-entry table covers the sizes up to
256 bits, whose code is the table's last index, 6. -/
def KS_META_256_code : Nat := 6

/-- `KS_WriteOTP` from `ks.c`: entry busy check, metadata write (with the
caller-chosen index), rejection of any size-class code beyond the 256-bit
code, a single ≤ 8 word copy into the key window, status clear, one write
strobe preserving silent/scramble, busy-wait, error-flag check, and on
success the caller's index is returned. -/
def KS_WriteOTP (env : KSEnv) (i32KeyIdx : Int) (u32Meta : Nat)
    (au32Key : Nat → Nat) : OpRun :=
  if (env.sts 0).busy = true then ⟨KSResult.errBusy, [], []⟩
  else
    let ws := [RegWrite.wMETADATA (MetaVal.forWriteOTP u32Meta i32KeyIdx)]
    let sidx := sizeField u32Meta
    if KS_META_256_code < sidx then ⟨KSResult.errParameter, ws, []⟩
    else
      let n := otpCntTbl.getD sidx 0
      let c := writeCtl false env.ctl0.silent env.ctl0.scmb
      let ws' := ws ++ ((List.range n).map fun i => RegWrite.wKEY i (au32Key i))
        ++ [RegWrite.wSTSclear, RegWrite.wCTL c]
      match busyWaitLoop env 1 KS_TIMEOUT with
      | none => ⟨KSResult.errTimeout, ws', []⟩
      | some t1 =>
        if (env.sts t1).eif = true then ⟨KSResult.errFail, ws', []⟩
        else ⟨KSResult.ok i32KeyIdx, ws', []⟩

/-- `KS_EraseKey` from `ks.c`: entry busy check, metadata write addressed
to SRAM, status clear, erase strobe preserving silent/scramble, busy-wait,
error-flag check. -/
def KS_EraseKey (env : KSEnv) (i32KeyIdx : Int) : OpRun :=
  if (env.sts 0).busy = true then ⟨KSResult.errBusy, [], []⟩
  else
    let c : CTLval := ⟨KS_OP_ERASE, true, false, false, env.ctl0.silent, env.ctl0.scmb⟩
    let ws := [RegWrite.wMETADATA (MetaVal.forKey KS_MEM_Type.KS_SRAM i32KeyIdx),
      RegWrite.wSTSclear, RegWrite.wCTL c]
    match busyWaitLoop env 1 KS_TIMEOUT with
    | none => ⟨KSResult.errTimeout, ws, []⟩
    | some t1 =>
      if (env.sts t1).eif = true then ⟨KSResult.errFail, ws, []⟩
      else ⟨KSResult.ok 0, ws, []⟩

/-- `KS_EraseOTPKey` from `ks.c`.  Unlike the other command strobes, its
control write is the raw constant `KS_OP_ERASE | KS_CTL_START_Msk`: the
silent/scramble bits are not read back and are written as zero. -/
def KS_EraseOTPKey (env : KSEnv) (i32KeyIdx : Int) : OpRun :=
  if (env.sts 0).busy = true then ⟨KSResult.errBusy, [], []⟩
  else
    let c : CTLval := ⟨KS_OP_ERASE, true, false, false, false, false⟩
    let ws := [RegWrite.wMETADATA (MetaVal.forKey KS_MEM_Type.KS_OTP i32KeyIdx),
      RegWrite.wSTSclear, RegWrite.wCTL c]
    match busyWaitLoop env 1 KS_TIMEOUT with
    | none => ⟨KSResult.errTimeout, ws, []⟩
    | some t1 =>
      if (env.sts t1).eif = true then ⟨KSResult.errFail, ws, []⟩
      else ⟨KSResult.ok 0, ws, []⟩

/-- `KS_LockOTPKey` from `ks.c`.  Like `KS_EraseOTPKey`, its control write
is the raw constant `KS_OP_LOCK | KS_CTL_START_Msk`, clearing the
silent/scramble bits. -/
def KS_LockOTPKey (env : KSEnv) (i32KeyIdx : Int) : OpRun :=
  if (env.sts 0).busy = true then ⟨KSResult.errBusy, [], []⟩
  else
    let c : CTLval := ⟨KS_OP_LOCK, true, false, false, false, false⟩
    let ws := [RegWrite.wMETADATA (MetaVal.forKey KS_MEM_Type.KS_OTP i32KeyIdx),
      RegWrite.wSTSclear, RegWrite.wCTL c]
    match busyWaitLoop env 1 KS_TIMEOUT with
    | none => ⟨KSResult.errTimeout, ws, []⟩
    | some t1 =>
      if (env.sts t1).eif = true then ⟨KSResult.errFail, ws, []⟩
      else ⟨KSResult.ok 0, ws, []⟩

/-- `KS_EraseAll` from `ks.c`: metadata addresses the whole memory type;
the erase-all strobe preserves silent/scramble. -/
def KS_EraseAll (env : KSEnv) (eMemType : KS_MEM_Type) : OpRun :=
  if (env.sts 0).busy = true then ⟨KSResult.errBusy, [], []⟩
  else
    let c : CTLval := ⟨KS_OP_ERASE_ALL, true, false, false, env.ctl0.silent, env.ctl0.scmb⟩
    let ws := [RegWrite.wMETADATA (MetaVal.forMem eMemType),
      RegWrite.wSTSclear, RegWrite.wCTL c]
    match busyWaitLoop env 1 KS_TIMEOUT with
    | none => ⟨KSResult.errTimeout, ws, []⟩
    | some t1 =>
      if (env.sts t1).eif = true then ⟨KSResult.errFail, ws, []⟩
      else ⟨KSResult.ok 0, ws, []⟩

/-- `KS_RevokeKey` from `ks.c`: single revoke strobe preserving
silent/scramble. -/
def KS_RevokeKey (env : KSEnv) (eMemType : KS_MEM_Type) (i32KeyIdx : Int) : OpRun :=
  if (env.sts 0).busy = true then ⟨KSResult.errBusy, [], []⟩
  else
    let c : CTLval := ⟨KS_OP_REVOKE, true, false, false, env.ctl0.silent, env.ctl0.scmb⟩
    let ws := [RegWrite.wMETADATA (MetaVal.forKey eMemType i32KeyIdx),
      RegWrite.wSTSclear, RegWrite.wCTL c]
    match busyWaitLoop env 1 KS_TIMEOUT with
    | none => ⟨KSResult.errTimeout, ws, []⟩
    | some t1 =>
      if (env.sts t1).eif = true then ⟨KSResult.errFail, ws, []⟩
      else ⟨KSResult.ok 0, ws, []⟩

/-- `KS_ToggleSRAM` from `ks.c`: anti-remanence strobe preserving
silent/scramble; after the error-flag check the source reads the status
register once more and returns `(KS->STS & RAMINV) > 0` (1 or 0). -/
def KS_ToggleSRAM (env : KSEnv) : OpRun :=
  if (env.sts 0).busy = true then ⟨KSResult.errBusy, [], []⟩
  else
    let c : CTLval := ⟨KS_OP_REMAN, true, false, false, env.ctl0.silent, env.ctl0.scmb⟩
    let ws := [RegWrite.wMETADATA (MetaVal.forMem KS_MEM_Type.KS_SRAM),
      RegWrite.wSTSclear, RegWrite.wCTL c]
    match busyWaitLoop env 1 KS_TIMEOUT with
    | none => ⟨KSResult.errTimeout, ws, []⟩
    | some t1 =>
      if (env.sts t1).eif = true then ⟨KSResult.errFail, ws, []⟩
      else ⟨KSResult.ok (if (env.sts (t1 + 1)).raminv = true then 1 else 0), ws, []⟩

/-- The control-register values among a write trace, in order. -/
def ctlWrites (ws : List RegWrite) : List CTLval :=
  ws.filterMap fun w =>
    match w with
    | RegWrite.wCTL c => some c
    | _ => none

/-- An idle, fault-free controller: never busy, no latched error, already
initialized; key words are `1000 * chunk + i` so reassembly order is
visible; the control register starts with all mode bits clear. -/
def envIdle : KSEnv :=
  ⟨fun _ => ⟨false, false, true, false⟩, fun c i => 1000 * c + i,
    ⟨0, false, false, false, false, false⟩, 5⟩

/-- A controller whose busy flag is stuck set at every poll (and never
initialized). -/
def envBusyAll : KSEnv :=
  ⟨fun _ => ⟨true, false, false, false⟩, fun _ _ => 0,
    ⟨0, false, false, false, false, false⟩, 0⟩

/-- A controller that is idle at the entry poll but busy forever after:
every in-operation wait exhausts its budget. -/
def envBusyTail : KSEnv :=
  ⟨fun t => ⟨decide (1 ≤ t), false, true, false⟩, fun _ _ => 0,
    ⟨0, false, false, false, false, false⟩, 0⟩

/-- A controller that is never busy but holds the latched error flag set
at every poll; `INITDONE` rises after the first poll. -/
def envEifAll : KSEnv :=
  ⟨fun t => ⟨false, true, decide (1 ≤ t), false⟩, fun _ _ => 0,
    ⟨0, false, false, false, false, false⟩, 0⟩

/-- An idle controller whose control register has the silent and scramble
mode bits set when the call starts. -/
def envSilentOn : KSEnv :=
  ⟨fun _ => ⟨false, false, true, false⟩, fun _ _ => 0,
    ⟨0, false, false, false, true, true⟩, 0⟩

/-- Number of 8-word hardware transactions a chunked loop performs for a
positive remaining word count `cnt`: `ceil(cnt / 8)`. -/
def chunksOf (cnt : Int) : Nat := (cnt.toNat + 7) / 8

/-- The register-write tail a run of `n` read chunks produces: per chunk a
status clear followed by a read strobe, the first with the given `cont`
flag and all later ones with the continuation bit set, all preserving the
silent/scramble bits `s`, `m`. -/
def readTrace (s m : Bool) : Nat → Bool → List RegWrite
  | 0, _ => []
  | n + 1, cont =>
    RegWrite.wSTSclear :: RegWrite.wCTL (readCtl cont s m) :: readTrace s m n true

theorem busyWaitLoop_clear {env : KSEnv} {t : Nat}
    (h : (env.sts t).busy = false) (c : Nat) :
    busyWaitLoop env t c = some (t + 1) := by
  cases c <;> simp [busyWaitLoop, h]

theorem busyWaitLoop_stuck {env : KSEnv} {t : Nat}
    (h : ∀ k, t ≤ k → (env.sts k).busy = true) (c : Nat) :
    busyWaitLoop env t c = none := by
  induction c generalizing t with
  | zero => simp [busyWaitLoop, h t le_rfl]
  | succ c ih =>
    rcases Nat.eq_zero_or_pos c with hc | hc
    · simp [busyWaitLoop, h t le_rfl, hc]
    · simp only [busyWaitLoop, h t le_rfl, if_true]
      rw [if_neg (by omega)]
      exact ih fun k hk => h k (by omega)

theorem busyWaitLoop_bound {env : KSEnv} {t c t' : Nat} (hc : 1 ≤ c)
    (h : busyWaitLoop env t c = some t') : t < t' ∧ t' ≤ t + c := by
  induction c generalizing t with
  | zero => omega
  | succ c ih =>
    rcases Nat.eq_zero_or_pos c with hc0 | hc0
    · subst hc0
      by_cases hb : (env.sts t).busy = true
      · simp [busyWaitLoop, hb] at h
      · simp [busyWaitLoop, hb] at h
        omega
    · by_cases hb : (env.sts t).busy = true
      · simp only [busyWaitLoop, hb, if_true] at h
        rw [if_neg (by omega)] at h
        have := ih hc0 h
        omega
      · simp [busyWaitLoop, hb] at h
        omega

theorem busyWaitLoop_none_polls {env : KSEnv} {t c : Nat}
    (h : busyWaitLoop env t c = none) :
    ∀ k, k < c → (env.sts (t + k)).busy = true := by
  induction c generalizing t with
  | zero => omega
  | succ c ih =>
    intro k hk
    by_cases hb : (env.sts t).busy = true
    · rcases Nat.eq_zero_or_pos k with hk0 | hk0
      · simpa [hk0] using hb
      · rcases Nat.eq_zero_or_pos c with hc0 | hc0
        · omega
        · simp only [busyWaitLoop, hb, if_true] at h
          rw [if_neg (by omega)] at h
          have := ih h (k - 1) (by omega)
          have hrw : t + 1 + (k - 1) = t + k := by omega
          rwa [hrw] at this
    · simp [busyWaitLoop, hb] at h

theorem initWaitLoop_bound {env : KSEnv} {t c t' : Nat} (hc : 1 ≤ c)
    (h : initWaitLoop env t c = some t') : t < t' ∧ t' ≤ t + c := by
  induction c generalizing t with
  | zero => omega
  | succ c ih =>
    rcases Nat.eq_zero_or_pos c with hc0 | hc0
    · subst hc0
      by_cases hb : (env.sts t).initdone = true
      · simp [initWaitLoop, hb] at h
        omega
      · simp [initWaitLoop, hb] at h
    · by_cases hb : (env.sts t).initdone = true
      · simp [initWaitLoop, hb] at h
        omega
      · simp only [initWaitLoop] at h
        rw [if_neg hb, if_neg (show ¬c = 0 by omega)] at h
        have := ih hc0 h
        omega

theorem initWaitLoop_none_polls {env : KSEnv} {t c : Nat}
    (h : initWaitLoop env t c = none) :
    ∀ k, k < c → (env.sts (t + k)).initdone = false := by
  induction c generalizing t with
  | zero => omega
  | succ c ih =>
    intro k hk
    by_cases hb : (env.sts t).initdone = true
    · simp [initWaitLoop, hb] at h
    · rcases Nat.eq_zero_or_pos k with hk0 | hk0
      · simpa [hk0] using hb
      · rcases Nat.eq_zero_or_pos c with hc0 | hc0
        · omega
        · simp only [initWaitLoop] at h
          rw [if_neg hb, if_neg (show ¬c = 0 by omega)] at h
          have := ih h (k - 1) (by omega)
          have hrw : t + 1 + (k - 1) = t + k := by omega
          rwa [hrw] at this

theorem toInt32_of_lt {n : Nat} (h : n < 2147483648) : toInt32 n = (n : Int) := by
  have h1 : n % 4294967296 = n := Nat.mod_eq_of_lt (by omega)
  simp [toInt32, h1, h]

theorem ctlWrites_append (a b : List RegWrite) :
    ctlWrites (a ++ b) = ctlWrites a ++ ctlWrites b :=
  List.filterMap_append a b _

theorem ctlWrites_readTrace (s m : Bool) (n : Nat) (cont : Bool) :
    ctlWrites (readTrace s m n cont) =
      (List.range n).map fun k => readCtl (cont || decide (0 < k)) s m := by
  induction n generalizing cont with
  | zero => simp [readTrace, ctlWrites]
  | succ n ih =>
    rw [List.range_succ_eq_map]
    have h1 : ctlWrites (readTrace s m (n + 1) cont) =
        readCtl cont s m :: ctlWrites (readTrace s m n true) := by
      simp [readTrace, ctlWrites]
    rw [h1, ih true]
    simp only [List.map_cons, List.map_map]
    congr 1
    · simp
    · apply List.map_congr_left
      intro a _
      simp [Function.comp, Nat.succ_pos]

theorem chunksOf_of_le8 {cnt : Int} (h0 : 0 < cnt) (h8 : ¬8 < cnt) :
    chunksOf cnt = 1 := by
  unfold chunksOf
  omega

theorem chunksOf_of_gt8 {cnt : Int} (h8 : 8 < cnt) :
    chunksOf cnt = chunksOf (cnt - 8) + 1 := by
  unfold chunksOf
  omega

theorem readLoop_run {env : KSEnv} (Hb : ∀ u, (env.sts u).busy = false) :
    ∀ n : Nat, ∀ cnt : Int, cnt.toNat ≤ n → 0 < cnt →
    ∀ (offset : Nat) (cont : Bool) (chunk t : Nat) (ctl : CTLval)
      (ws : List RegWrite) (buf : List (Nat × Nat)),
    readLoop env cnt offset cont chunk t ctl ws buf =
      ⟨if (env.sts (t + chunksOf cnt)).eif = true then KSResult.errFail
        else KSResult.ok 0,
       ws ++ readTrace ctl.silent ctl.scmb (chunksOf cnt) cont,
       buf ++ (List.range cnt.toNat).map
         fun j => (offset + j, env.key (chunk + j / 8) (j % 8))⟩ := by
  intro n
  induction n with
  | zero =>
    intro cnt hle hpos
    omega
  | succ n ih =>
    intro cnt hle hpos offset cont chunk t ctl ws buf
    rw [readLoop]
    rw [busyWaitLoop_clear (Hb t) KS_TIMEOUT]
    by_cases h8 : 8 < cnt
    · simp only [if_pos h8, dif_pos h8]
      rw [ih (cnt - 8) (by omega) (by omega)]
      rw [chunksOf_of_gt8 h8]
      rw [OpRun.mk.injEq]
      refine ⟨?_, ?_, ?_⟩
      · have harith : t + (chunksOf (cnt - 8) + 1) = t + 1 + chunksOf (cnt - 8) := by
          omega
        rw [harith]
      · rw [readTrace]
        simp only [List.append_assoc, List.cons_append, List.nil_append]
        rfl
      · have hsplit : cnt.toNat = 8 + (cnt - 8).toNat := by omega
        have hA : (List.range ((8 : Int)).toNat).map
              (fun i => (offset + i, env.key chunk i)) =
            (List.range 8).map
              (fun j => (offset + j, env.key (chunk + j / 8) (j % 8))) := by
          apply List.map_congr_left
          intro j hj
          have hj8 : j < 8 := List.mem_range.mp hj
          simp [Nat.div_eq_of_lt hj8, Nat.mod_eq_of_lt hj8]
        have hB : (List.range (cnt - 8).toNat).map
              (fun j => (offset + 8 + j, env.key (chunk + 1 + j / 8) (j % 8))) =
            (List.range (cnt - 8).toNat).map
              ((fun j => (offset + j, env.key (chunk + j / 8) (j % 8))) ∘ (fun x => 8 + x)) := by
          apply List.map_congr_left
          intro x _
          simp only [Function.comp]
          have h2 : (8 + x) % 8 = x % 8 := by omega
          have h3 : offset + (8 + x) = offset + 8 + x := by omega
          have h4 : chunk + (8 + x) / 8 = chunk + 1 + x / 8 := by omega
          rw [h3, h4, h2]
        rw [hsplit, List.range_add, List.map_append, List.map_map, ← hA, ← hB,
          List.append_assoc]
    · simp only [if_neg h8, dif_neg h8]
      rw [chunksOf_of_le8 hpos h8]
      have hbuf : (List.range cnt.toNat).map
            (fun i => (offset + i, env.key chunk i)) =
          (List.range cnt.toNat).map
            (fun j => (offset + j, env.key (chunk + j / 8) (j % 8))) := by
        apply List.map_congr_left
        intro j hj
        have hj8 : j < 8 := by
          have := List.mem_range.mp hj
          omega
        have h1 : j / 8 = 0 := Nat.div_eq_of_lt hj8
        have h2 : j % 8 = j := Nat.mod_eq_of_lt hj8
        simp [h1, h2]
      rw [show readTrace ctl.silent ctl.scmb 1 cont =
        [RegWrite.wSTSclear, RegWrite.wCTL (readCtl cont ctl.silent ctl.scmb)] from rfl]
      rw [← hbuf]
      by_cases he : (env.sts (t + 1)).eif = true
      · simp [he]
      · simp [he]

theorem readLoop_stuck {env : KSEnv} {t : Nat}
    (Hs : ∀ k, t ≤ k → (env.sts k).busy = true)
    (cnt : Int) (offset : Nat) (cont : Bool) (chunk : Nat) (ctl : CTLval)
    (ws : List RegWrite) (buf : List (Nat × Nat)) :
    readLoop env cnt offset cont chunk t ctl ws buf =
      ⟨KSResult.errTimeout,
       ws ++ [RegWrite.wSTSclear, RegWrite.wCTL (readCtl cont ctl.silent ctl.scmb)],
       buf⟩ := by
  rw [readLoop, busyWaitLoop_stuck Hs KS_TIMEOUT]

theorem writeLoop_stuck {env : KSEnv} {t : Nat}
    (Hs : ∀ k, t ≤ k → (env.sts k).busy = true)
    (au32Key : Nat → Nat) (cnt : Int) (offset : Nat) (cont : Bool)
    (ctl : CTLval) (ws : List RegWrite) :
    (writeLoop env au32Key cnt offset cont t ctl ws).result = KSResult.errTimeout := by
  rw [writeLoop, busyWaitLoop_stuck Hs KS_TIMEOUT]

theorem readLoop_ctl {env : KSEnv} :
    ∀ n : Nat, ∀ cnt : Int, cnt.toNat ≤ n →
    ∀ (offset : Nat) (cont : Bool) (chunk t : Nat) (ctl : CTLval)
      (ws : List RegWrite) (buf : List (Nat × Nat)) (c : CTLval),
    c ∈ ctlWrites (readLoop env cnt offset cont chunk t ctl ws buf).writes →
    c ∈ ctlWrites ws ∨ (c.silent = ctl.silent ∧ c.scmb = ctl.scmb) := by
  intro n
  induction n with
  | zero =>
    intro cnt hle offset cont chunk t ctl ws buf c hc
    rw [readLoop] at hc
    have h8 : ¬8 < cnt := by omega
    cases hw : busyWaitLoop env t KS_TIMEOUT with
    | none =>
      simp only [hw] at hc
      simp only [ctlWrites, List.filterMap_append, List.mem_append] at hc
      rcases hc with hc | hc
      · exact Or.inl hc
      · right
        simp [List.filterMap] at hc
        subst hc
        exact ⟨rfl, rfl⟩
    | some t1 =>
      simp only [hw] at hc
      rw [dif_neg h8] at hc
      have hget : ∀ r : OpRun,
          r.writes = ws ++ [RegWrite.wSTSclear,
            RegWrite.wCTL (readCtl cont ctl.silent ctl.scmb)] →
          c ∈ ctlWrites r.writes →
          c ∈ ctlWrites ws ∨ (c.silent = ctl.silent ∧ c.scmb = ctl.scmb) := by
        intro r hr hcr
        rw [hr] at hcr
        simp only [ctlWrites, List.filterMap_append, List.mem_append] at hcr
        rcases hcr with hcr | hcr
        · exact Or.inl hcr
        · right
          simp [List.filterMap] at hcr
          subst hcr
          exact ⟨rfl, rfl⟩
      by_cases he : (env.sts t1).eif = true
      · rw [if_pos he] at hc
        exact hget _ rfl hc
      · rw [if_neg he] at hc
        exact hget _ rfl hc
  | succ n ih =>
    intro cnt hle offset cont chunk t ctl ws buf c hc
    rw [readLoop] at hc
    cases hw : busyWaitLoop env t KS_TIMEOUT with
    | none =>
      simp only [hw] at hc
      simp only [ctlWrites, List.filterMap_append, List.mem_append] at hc
      rcases hc with hc | hc
      · exact Or.inl hc
      · right
        simp [List.filterMap] at hc
        subst hc
        exact ⟨rfl, rfl⟩
    | some t1 =>
      simp only [hw] at hc
      by_cases h8 : 8 < cnt
      · rw [dif_pos h8] at hc
        have := ih (cnt - 8) (by omega) _ _ _ _ _ _ _ _ hc
        rcases this with hmem | hpres
        · simp only [ctlWrites, List.filterMap_append, List.mem_append] at hmem
          rcases hmem with hmem | hmem
          · exact Or.inl hmem
          · right
            simp [List.filterMap] at hmem
            subst hmem
            exact ⟨rfl, rfl⟩
        · exact Or.inr hpres
      · rw [dif_neg h8] at hc
        have hget : ∀ r : OpRun,
            r.writes = ws ++ [RegWrite.wSTSclear,
              RegWrite.wCTL (readCtl cont ctl.silent ctl.scmb)] →
            c ∈ ctlWrites r.writes →
            c ∈ ctlWrites ws ∨ (c.silent = ctl.silent ∧ c.scmb = ctl.scmb) := by
          intro r hr hcr
          rw [hr] at hcr
          simp only [ctlWrites, List.filterMap_append, List.mem_append] at hcr
          rcases hcr with hcr | hcr
          · exact Or.inl hcr
          · right
            simp [List.filterMap] at hcr
            subst hcr
            exact ⟨rfl, rfl⟩
        by_cases he : (env.sts t1).eif = true
        · rw [if_pos he] at hc
          exact hget _ rfl hc
        · rw [if_neg he] at hc
          exact hget _ rfl hc

theorem ctlWrites_writeChunk (ws : List RegWrite) (kw : List RegWrite)
    (hkw : ∀ w ∈ kw, ∀ c : CTLval, w ≠ RegWrite.wCTL c) (c0 : CTLval) :
    ctlWrites (ws ++ kw ++ [RegWrite.wSTSclear, RegWrite.wCTL c0]) =
      ctlWrites ws ++ [c0] := by
  rw [ctlWrites_append, ctlWrites_append]
  have hkw0 : ctlWrites kw = [] := by
    rw [ctlWrites, List.filterMap_eq_nil_iff]
    intro w hw
    cases w with
    | wCTL c => exact absurd rfl (hkw _ hw c)
    | wMETADATA v => rfl
    | wSTSclear => rfl
    | wKEY i v => rfl
  rw [hkw0]
  simp [ctlWrites, List.filterMap]

theorem writeLoop_ctl {env : KSEnv} {au32Key : Nat → Nat} :
    ∀ n : Nat, ∀ cnt : Int, cnt.toNat ≤ n →
    ∀ (offset : Nat) (cont : Bool) (t : Nat) (ctl : CTLval)
      (ws : List RegWrite) (c : CTLval),
    c ∈ ctlWrites (writeLoop env au32Key cnt offset cont t ctl ws).writes →
    c ∈ ctlWrites ws ∨ (c.silent = ctl.silent ∧ c.scmb = ctl.scmb) := by
  have hstep : ∀ (ws : List RegWrite) (m0 : Nat) (offset : Nat) (cont : Bool)
      (ctl : CTLval) (c : CTLval),
      c ∈ ctlWrites (ws ++ ((List.range m0).map fun i => RegWrite.wKEY i (au32Key (offset + i)))
        ++ [RegWrite.wSTSclear, RegWrite.wCTL (writeCtl cont ctl.silent ctl.scmb)]) →
      c ∈ ctlWrites ws ∨ (c.silent = ctl.silent ∧ c.scmb = ctl.scmb) := by
    intro ws m0 offset cont ctl c hc
    rw [ctlWrites_writeChunk] at hc
    · rw [List.mem_append] at hc
      rcases hc with hc | hc
      · exact Or.inl hc
      · right
        simp at hc
        subst hc
        exact ⟨rfl, rfl⟩
    · intro w hw c' hcw
      rcases List.mem_map.mp hw with ⟨i, _, hi⟩
      rw [← hi] at hcw
      exact RegWrite.noConfusion hcw
  intro n
  induction n with
  | zero =>
    intro cnt hle offset cont t ctl ws c hc
    rw [writeLoop] at hc
    have h8 : ¬8 < cnt := by omega
    cases hw : busyWaitLoop env t KS_TIMEOUT with
    | none =>
      simp only [hw] at hc
      exact hstep _ _ _ _ _ _ hc
    | some t1 =>
      simp only [hw] at hc
      rw [dif_neg h8] at hc
      by_cases he : (env.sts t1).eif = true
      · rw [if_pos he] at hc
        exact hstep _ _ _ _ _ _ hc
      · rw [if_neg he] at hc
        exact hstep _ _ _ _ _ _ hc
  | succ n ih =>
    intro cnt hle offset cont t ctl ws c hc
    rw [writeLoop] at hc
    cases hw : busyWaitLoop env t KS_TIMEOUT with
    | none =>
      simp only [hw] at hc
      exact hstep _ _ _ _ _ _ hc
    | some t1 =>
      simp only [hw] at hc
      by_cases h8 : 8 < cnt
      · rw [dif_pos h8] at hc
        have := ih (cnt - 8) (by omega) _ _ _ _ _ _ hc
        rcases this with hmem | hpres
        · exact hstep _ _ _ _ _ _ hmem
        · exact Or.inr hpres
      · rw [dif_neg h8] at hc
        by_cases he : (env.sts t1).eif = true
        · rw [if_pos he] at hc
          exact hstep _ _ _ _ _ _ hc
        · rw [if_neg he] at hc
          exact hstep _ _ _ _ _ _ hc

theorem writeLoop_fail {env : KSEnv} {au32Key : Nat → Nat}
    (Hb : ∀ u, (env.sts u).busy = false) (He : ∀ u, (env.sts u).eif = true) :
    ∀ n : Nat, ∀ cnt : Int, cnt.toNat ≤ n →
    ∀ (offset : Nat) (cont : Bool) (t : Nat) (ctl : CTLval) (ws : List RegWrite),
    (writeLoop env au32Key cnt offset cont t ctl ws).result = KSResult.errFail := by
  intro n
  induction n with
  | zero =>
    intro cnt hle offset cont t ctl ws
    rw [writeLoop]
    simp only [busyWaitLoop_clear (Hb t) KS_TIMEOUT]
    have h8 : ¬8 < cnt := by omega
    rw [dif_neg h8, if_pos (He (t + 1))]
  | succ n ih =>
    intro cnt hle offset cont t ctl ws
    rw [writeLoop]
    simp only [busyWaitLoop_clear (Hb t) KS_TIMEOUT]
    by_cases h8 : 8 < cnt
    · rw [dif_pos h8]
      exact ih (cnt - 8) (by omega) _ _ _ _ _
    · rw [dif_neg h8, if_pos (He (t + 1))]

theorem mem_ctlWrites_three (mv : MetaVal) (c0 : CTLval) :
    ctlWrites [RegWrite.wMETADATA mv, RegWrite.wSTSclear, RegWrite.wCTL c0] = [c0] := by
  simp [ctlWrites, List.filterMap]

theorem getElem?_isSome_iff (l : List Nat) (i : Nat) :
    l[i]?.isSome = true ↔ i < l.length := by
  by_cases h : i < l.length
  · simp [List.getElem?_eq_getElem h, h]
  · simp [List.getElem?_eq_none (by omega : l.length ≤ i)]
    omega

/-- C1 (counterexample): the claim quantifies over every Key Store
operation and cites `KS_Open`, but `KS_Open` never returns the Busy
error: observing the busy flag set (here: stuck set, with the controller
uninitialized) makes it busy-wait and ultimately return Timeout, not
Busy. -/
theorem ks_c1_counterexample :
    (envBusyAll.sts 0).busy = true ∧
    (KS_Open envBusyAll).result = KSResult.errTimeout ∧
    KSResult.errTimeout ≠ KSResult.errBusy :=
  ⟨rfl, by decide, by decide⟩

/-- C1 (amended): every command-issuing Key Store operation other than
`KS_Open` returns the Busy error immediately when the busy flag is
observed set at the entry poll, performing no register write at all (in
particular neither the metadata nor the control register is altered);
`KS_Open` instead busy-waits with a bounded countdown. -/
theorem ks_c1_amended (env : KSEnv) (eMemType : KS_MEM_Type) (i32KeyIdx : Int)
    (u32Meta : Nat) (u32WordCnt : Nat) (au32Key : Nat → Nat)
    (hb : (env.sts 0).busy = true) :
    KS_Read env eMemType i32KeyIdx u32WordCnt = ⟨KSResult.errBusy, [], []⟩ ∧
    KS_Write env eMemType u32Meta au32Key = some ⟨KSResult.errBusy, [], []⟩ ∧
    KS_WriteOTP env i32KeyIdx u32Meta au32Key = ⟨KSResult.errBusy, [], []⟩ ∧
    KS_EraseKey env i32KeyIdx = ⟨KSResult.errBusy, [], []⟩ ∧
    KS_EraseOTPKey env i32KeyIdx = ⟨KSResult.errBusy, [], []⟩ ∧
    KS_LockOTPKey env i32KeyIdx = ⟨KSResult.errBusy, [], []⟩ ∧
    KS_EraseAll env eMemType = ⟨KSResult.errBusy, [], []⟩ ∧
    KS_RevokeKey env eMemType i32KeyIdx = ⟨KSResult.errBusy, [], []⟩ ∧
    KS_ToggleSRAM env = ⟨KSResult.errBusy, [], []⟩ := by
  refine ⟨?_, ?_, ?_, ?_, ?_, ?_, ?_, ?_, ?_⟩ <;>
    simp [KS_Read, KS_Write, KS_WriteOTP, KS_EraseKey, KS_EraseOTPKey,
      KS_LockOTPKey, KS_EraseAll, KS_RevokeKey, KS_ToggleSRAM, hb]

/-- C1 (witness): the amended statement at a controller whose busy flag
is set at entry. -/
theorem ks_c1_witness :
    KS_Read envBusyAll KS_MEM_Type.KS_SRAM 0 8 = ⟨KSResult.errBusy, [], []⟩ ∧
    KS_Write envBusyAll KS_MEM_Type.KS_SRAM 0 (fun _ => 0) =
      some ⟨KSResult.errBusy, [], []⟩ ∧
    KS_WriteOTP envBusyAll 0 0 (fun _ => 0) = ⟨KSResult.errBusy, [], []⟩ ∧
    KS_EraseKey envBusyAll 0 = ⟨KSResult.errBusy, [], []⟩ ∧
    KS_EraseOTPKey envBusyAll 0 = ⟨KSResult.errBusy, [], []⟩ ∧
    KS_LockOTPKey envBusyAll 0 = ⟨KSResult.errBusy, [], []⟩ ∧
    KS_EraseAll envBusyAll KS_MEM_Type.KS_SRAM = ⟨KSResult.errBusy, [], []⟩ ∧
    KS_RevokeKey envBusyAll KS_MEM_Type.KS_SRAM 0 = ⟨KSResult.errBusy, [], []⟩ ∧
    KS_ToggleSRAM envBusyAll = ⟨KSResult.errBusy, [], []⟩ :=
  ks_c1_amended envBusyAll KS_MEM_Type.KS_SRAM 0 0 8 (fun _ => 0) rfl

/-- C3 (counterexample): a write whose metadata size class maps to word
count 0 (reserved code 13, metadata word `13 << 8 = 3328`) does return
the InvalidParameter error and issues no command strobe, but the claim's
"before touching any hardware register" is false: the metadata register
has already been programmed when the check fires, so the write trace is
not empty. -/
theorem ks_c3_counterexample :
    KS_Write envIdle KS_MEM_Type.KS_SRAM 3328 (fun _ => 0) =
      some ⟨KSResult.errParameter,
        [RegWrite.wMETADATA (MetaVal.forWrite KS_MEM_Type.KS_SRAM 3328)], []⟩ ∧
    [RegWrite.wMETADATA (MetaVal.forWrite KS_MEM_Type.KS_SRAM 3328)] ≠
      ([] : List RegWrite) :=
  ⟨by decide, by decide⟩

/-- C3 (amended): for every memory type and metadata word whose
size-class field maps to a word count of 0, `KS_Write` (on a non-busy
controller) returns the InvalidParameter error and issues no hardware
command strobe; the only register it has touched is the metadata
register, which is programmed before the size-class check. -/
theorem ks_c3_amended (env : KSEnv) (eMemType : KS_MEM_Type) (u32Meta : Nat)
    (au32Key : Nat → Nat) (hb : (env.sts 0).busy = false)
    (h0 : KS_GetKeyWordCnt? u32Meta = some 0) :
    KS_Write env eMemType u32Meta au32Key =
      some ⟨KSResult.errParameter,
        [RegWrite.wMETADATA (MetaVal.forWrite eMemType u32Meta)], []⟩ ∧
    ctlWrites [RegWrite.wMETADATA (MetaVal.forWrite eMemType u32Meta)] = [] := by
  constructor
  · simp [KS_Write, hb, h0]
  · simp [ctlWrites, List.filterMap]

/-- C3 (witness): the amended statement at reserved size code 13 on an
idle controller. -/
theorem ks_c3_witness :
    (KS_Write envIdle KS_MEM_Type.KS_SRAM 3328 (fun _ => 0) =
      some ⟨KSResult.errParameter,
        [RegWrite.wMETADATA (MetaVal.forWrite KS_MEM_Type.KS_SRAM 3328)], []⟩) ∧
    ctlWrites [RegWrite.wMETADATA (MetaVal.forWrite KS_MEM_Type.KS_SRAM 3328)] = [] :=
  ks_c3_amended envIdle KS_MEM_Type.KS_SRAM 3328 (fun _ => 0) rfl (by decide)

/-- C4: for every size-class code 0..20, `KS_GetKeyWordCnt` returns the
documented word count of the 21-entry table
(4, 6, 6, 7, 8, 8, 8, 9, 12, 13, 16, 17, 18, 0, 0, 0, 32, 48, 64, 96, 128),
and returns 0 exactly for the reserved codes 13, 14 and 15.  The embedded
`KS_GetKeyWordCnt?` is a pure function of the metadata word with no
environment and no write trace, mirroring that the source performs no
hardware access. -/
theorem ks_c4_table :
    ((List.range 21).map fun c => KS_GetKeyWordCnt? (c * 2 ^ KS_METADATA_SIZE_Pos)) =
      [some 4, some 6, some 6, some 7, some 8, some 8, some 8, some 9, some 12,
       some 13, some 16, some 17, some 18, some 0, some 0, some 0, some 32,
       some 48, some 64, some 96, some 128] ∧
    ((List.range 21).filter fun c =>
      decide (KS_GetKeyWordCnt? (c * 2 ^ KS_METADATA_SIZE_Pos) = some 0)) =
      [13, 14, 15] := by
  decide

/-- C5: writes to OTP memory reject keys larger than 8 words with the
InvalidParameter error: `KS_Write` to OTP fails whenever the looked-up
word count exceeds 8, and `KS_WriteOTP` fails whenever the size-class
code exceeds the 256-bit code (the last index of its 7-entry table). -/
theorem ks_c5_otp_cap (env : KSEnv) (u32Meta : Nat) (i32KeyIdx : Int)
    (au32Key : Nat → Nat) (hb : (env.sts 0).busy = false) :
    (∀ n, KS_GetKeyWordCnt? u32Meta = some n → 8 < n →
      KS_Write env KS_MEM_Type.KS_OTP u32Meta au32Key =
        some ⟨KSResult.errParameter,
          [RegWrite.wMETADATA (MetaVal.forWrite KS_MEM_Type.KS_OTP u32Meta)], []⟩) ∧
    (KS_META_256_code < sizeField u32Meta →
      KS_WriteOTP env i32KeyIdx u32Meta au32Key =
        ⟨KSResult.errParameter,
          [RegWrite.wMETADATA (MetaVal.forWriteOTP u32Meta i32KeyIdx)], []⟩) := by
  constructor
  · intro n hn h8
    have hn0 : ¬n = 0 := by omega
    simp [KS_Write, hb, hn, hn0, h8]
  · intro hs
    simp [KS_WriteOTP, hb, hs]

/-- C5 (witness): size code 16 (1024-bit, 32 words) rejected by both
entry points on an idle controller. -/
theorem ks_c5_witness :
    (KS_Write envIdle KS_MEM_Type.KS_OTP 4096 (fun _ => 0) =
      some ⟨KSResult.errParameter,
        [RegWrite.wMETADATA (MetaVal.forWrite KS_MEM_Type.KS_OTP 4096)], []⟩) ∧
    (KS_WriteOTP envIdle 0 4096 (fun _ => 0) =
      ⟨KSResult.errParameter,
        [RegWrite.wMETADATA (MetaVal.forWriteOTP 4096 0)], []⟩) :=
  ⟨(ks_c5_otp_cap envIdle 4096 0 (fun _ => 0) rfl).1 32 (by decide) (by decide),
   (ks_c5_otp_cap envIdle 4096 0 (fun _ => 0) rfl).2 (by decide)⟩

/-- C9: `KS_GetKeyWordCnt`'s table access is in bounds exactly when the
metadata's 5-bit size-class field (which can decode to any value 0..31)
is at most 20; for codes 21..31 the C array read is out of bounds, which
the embedding records as `none`. -/
theorem ks_c9_size_bounds (u32Meta : Nat) :
    sizeField u32Meta ≤ 31 ∧
    ((KS_GetKeyWordCnt? u32Meta).isSome = true ↔ sizeField u32Meta ≤ 20) := by
  constructor
  · have := Nat.mod_lt (u32Meta / 2 ^ KS_METADATA_SIZE_Pos) (show 0 < 32 by decide)
    unfold sizeField
    omega
  · unfold KS_GetKeyWordCnt?
    rw [getElem?_isSome_iff]
    have hl : au8CntTbl.length = 21 := rfl
    omega

/-- C9 (witness): metadata word `21 << 8 = 5376` decodes to size code 21,
where the lookup is out of bounds. -/
theorem ks_c9_witness :
    sizeField 5376 ≤ 31 ∧
    ((KS_GetKeyWordCnt? 5376).isSome = true ↔ sizeField 5376 ≤ 20) :=
  ks_c9_size_bounds 5376

/-- C10: the shared bounded-countdown loops all ten operations use for
their busy-waits (`busyWaitLoop`, and `initWaitLoop` for `KS_Open`'s
initialization wait), invoked with budget `KS_TIMEOUT`, poll the status
register at most `KS_TIMEOUT` times: a successful wait advances the poll
counter by at most `KS_TIMEOUT`, and a Timeout return happens only after
exactly `KS_TIMEOUT` polls all observing the flag unfavourable.  Each
operation is a total function of its environment — termination does not
depend on how the busy flag behaves. -/
theorem ks_c10_bounded_polls (env : KSEnv) (t : Nat) :
    (∀ t', busyWaitLoop env t KS_TIMEOUT = some t' → t' ≤ t + KS_TIMEOUT) ∧
    (busyWaitLoop env t KS_TIMEOUT = none →
      ∀ k, k < KS_TIMEOUT → (env.sts (t + k)).busy = true) ∧
    (∀ t', initWaitLoop env t KS_TIMEOUT = some t' → t' ≤ t + KS_TIMEOUT) ∧
    (initWaitLoop env t KS_TIMEOUT = none →
      ∀ k, k < KS_TIMEOUT → (env.sts (t + k)).initdone = false) :=
  ⟨fun _ h => (busyWaitLoop_bound (by decide) h).2,
   busyWaitLoop_none_polls,
   fun _ h => (initWaitLoop_bound (by decide) h).2,
   initWaitLoop_none_polls⟩

/-- C2 (counterexample): word count `2^31 + 8 = 2147483656` exceeds 8,
but after the source's `(int32_t)` cast the loop counter is negative, so
on an idle controller `KS_Read` issues exactly one command transaction
(not `ceil(N/8)`) and copies nothing into the buffer. -/
theorem ks_c2_counterexample :
    8 < 2147483656 ∧
    (ctlWrites (KS_Read envIdle KS_MEM_Type.KS_SRAM 0 2147483656).writes).length = 1 ∧
    (KS_Read envIdle KS_MEM_Type.KS_SRAM 0 2147483656).buf = [] ∧
    (2147483656 + 7) / 8 ≠ 1 := by
  have hnb : ∀ t, (envIdle.sts t).busy = false := fun _ => rfl
  have hrun : KS_Read envIdle KS_MEM_Type.KS_SRAM 0 2147483656 =
      ⟨KSResult.ok 0,
       [RegWrite.wMETADATA (MetaVal.forKey KS_MEM_Type.KS_SRAM 0), RegWrite.wSTSclear,
        RegWrite.wCTL (readCtl false false false)], []⟩ := by
    rw [KS_Read, if_neg (by decide), readLoop]
    simp only [busyWaitLoop_clear (hnb 1) KS_TIMEOUT]
    norm_num [toInt32, envIdle]
  rw [hrun]
  refine ⟨by norm_num, by decide, rfl, by norm_num⟩

/-- C2 (amended): for every word count `N` with `8 < N < 2^31` (so that
the `(int32_t)` cast preserves the count), on a controller that is not
busy at entry and completes every transaction, `KS_Read` issues exactly
`ceil(N/8)` command strobes — the first with the continue bit clear and
every later one with it set, each preserving the silent/scramble mode
bits — and fills the output buffer in order with no gaps: position `j`
receives word `j % 8` of the window contents of chunk `j / 8`. -/
theorem ks_c2_amended (env : KSEnv) (eMemType : KS_MEM_Type) (i32KeyIdx : Int)
    (N : Nat) (h8 : 8 < N) (h31 : N < 2147483648)
    (Hb : ∀ u, (env.sts u).busy = false) :
    (ctlWrites (KS_Read env eMemType i32KeyIdx N).writes).length = (N + 7) / 8 ∧
    ctlWrites (KS_Read env eMemType i32KeyIdx N).writes =
      (List.range ((N + 7) / 8)).map
        (fun k => readCtl (decide (0 < k)) env.ctl0.silent env.ctl0.scmb) ∧
    (KS_Read env eMemType i32KeyIdx N).buf =
      (List.range N).map (fun j => (j, env.key (j / 8) (j % 8))) := by
  have hmain : KS_Read env eMemType i32KeyIdx N =
      ⟨if (env.sts (1 + chunksOf (N : Int))).eif = true then KSResult.errFail
        else KSResult.ok 0,
       [RegWrite.wMETADATA (MetaVal.forKey eMemType i32KeyIdx)] ++
         readTrace env.ctl0.silent env.ctl0.scmb (chunksOf (N : Int)) false,
       [] ++ (List.range ((N : Int)).toNat).map
         (fun j => (0 + j, env.key (0 + j / 8) (j % 8)))⟩ := by
    rw [KS_Read, if_neg (by simp [Hb 0]), toInt32_of_lt h31]
    exact readLoop_run Hb N (N : Int) (by simp) (by omega) 0 false 0 1 env.ctl0 _ _
  have hchunks : chunksOf (N : Int) = (N + 7) / 8 := by
    unfold chunksOf
    omega
  have hctl : ctlWrites (KS_Read env eMemType i32KeyIdx N).writes =
      (List.range ((N + 7) / 8)).map
        (fun k => readCtl (decide (0 < k)) env.ctl0.silent env.ctl0.scmb) := by
    rw [hmain]
    show ctlWrites ([RegWrite.wMETADATA (MetaVal.forKey eMemType i32KeyIdx)] ++
      readTrace env.ctl0.silent env.ctl0.scmb (chunksOf (N : Int)) false) = _
    rw [ctlWrites_append, ctlWrites_readTrace, hchunks]
    have hmeta : ctlWrites [RegWrite.wMETADATA (MetaVal.forKey eMemType i32KeyIdx)]
        = [] := by
      simp [ctlWrites, List.filterMap]
    rw [hmeta, List.nil_append]
    apply List.map_congr_left
    intro k _
    simp
  refine ⟨?_, hctl, ?_⟩
  · rw [hctl]
    simp
  · rw [hmain]
    show ([] ++ (List.range ((N : Int)).toNat).map
        (fun j => (0 + j, env.key (0 + j / 8) (j % 8)))) = _
    rw [List.nil_append]
    have htoNat : ((N : Int)).toNat = N := by omega
    rw [htoNat]
    apply List.map_congr_left
    intro j _
    simp

/-- C2 (witness): the amended statement for a 17-word read (3 chunks) on
an idle controller. -/
theorem ks_c2_witness :
    (ctlWrites (KS_Read envIdle KS_MEM_Type.KS_SRAM 0 17).writes).length = (17 + 7) / 8 ∧
    ctlWrites (KS_Read envIdle KS_MEM_Type.KS_SRAM 0 17).writes =
      (List.range ((17 + 7) / 8)).map
        (fun k => readCtl (decide (0 < k)) envIdle.ctl0.silent envIdle.ctl0.scmb) ∧
    (KS_Read envIdle KS_MEM_Type.KS_SRAM 0 17).buf =
      (List.range 17).map (fun j => (j, envIdle.key (j / 8) (j % 8))) :=
  ks_c2_amended envIdle KS_MEM_Type.KS_SRAM 0 17 (by decide) (by decide)
    (fun _ => rfl)

/-- C7: on a controller that is idle at the entry poll but whose busy
flag then never clears, every operation that reaches a busy-wait returns
the Timeout error — never the HardwareFailure error — whatever the
latched error flag shows (the environment's `eif` stream is
unconstrained).  For `KS_Write` and `KS_WriteOTP` the parameter checks
must pass for the wait to be reached at all. -/
theorem ks_c7_timeout (env : KSEnv) (eMemType : KS_MEM_Type) (i32KeyIdx : Int)
    (u32Meta : Nat) (u32WordCnt : Nat) (au32Key : Nat → Nat)
    (hb0 : (env.sts 0).busy = false)
    (hbt : ∀ t, 1 ≤ t → (env.sts t).busy = true) :
    (KS_Open env).result = KSResult.errTimeout ∧
    (KS_Read env eMemType i32KeyIdx u32WordCnt).result = KSResult.errTimeout ∧
    (∀ n, KS_GetKeyWordCnt? u32Meta = some n → 0 < n →
      ¬(eMemType = KS_MEM_Type.KS_OTP ∧ 8 < n) →
      Option.map OpRun.result (KS_Write env eMemType u32Meta au32Key) =
        some KSResult.errTimeout) ∧
    (sizeField u32Meta ≤ KS_META_256_code →
      (KS_WriteOTP env i32KeyIdx u32Meta au32Key).result = KSResult.errTimeout) ∧
    (KS_EraseKey env i32KeyIdx).result = KSResult.errTimeout ∧
    (KS_EraseOTPKey env i32KeyIdx).result = KSResult.errTimeout ∧
    (KS_LockOTPKey env i32KeyIdx).result = KSResult.errTimeout ∧
    (KS_EraseAll env eMemType).result = KSResult.errTimeout ∧
    (KS_RevokeKey env eMemType i32KeyIdx).result = KSResult.errTimeout ∧
    (KS_ToggleSRAM env).result = KSResult.errTimeout := by
  have hstuck : busyWaitLoop env 1 KS_TIMEOUT = none :=
    busyWaitLoop_stuck (fun k hk => hbt k hk) KS_TIMEOUT
  have hbne : ¬(env.sts 0).busy = true := by simp [hb0]
  refine ⟨?_, ?_, ?_, ?_, ?_, ?_, ?_, ?_, ?_, ?_⟩
  · rw [KS_Open]
    by_cases hi : (env.sts 0).initdone = true
    · rw [if_pos hi]
      simp [hstuck]
    · rw [if_neg hi]
      simp [hstuck]
  · rw [KS_Read, if_neg hbne,
      readLoop_stuck (fun k hk => hbt k hk)]
  · intro n hn h0 hotp
    have hn0 : ¬n = 0 := by omega
    rw [KS_Write, if_neg hbne]
    simp only [hn, hn0, if_false, hotp, if_neg]
    rw [Option.map_some']
    rw [writeLoop_stuck (fun k hk => hbt k hk)]
  · intro hs
    rw [KS_WriteOTP, if_neg hbne]
    simp only [if_neg (show ¬KS_META_256_code < sizeField u32Meta by omega)]
    simp [hstuck]
  · rw [KS_EraseKey, if_neg hbne]
    simp [hstuck]
  · rw [KS_EraseOTPKey, if_neg hbne]
    simp [hstuck]
  · rw [KS_LockOTPKey, if_neg hbne]
    simp [hstuck]
  · rw [KS_EraseAll, if_neg hbne]
    simp [hstuck]
  · rw [KS_RevokeKey, if_neg hbne]
    simp [hstuck]
  · rw [KS_ToggleSRAM, if_neg hbne]
    simp [hstuck]

/-- C7 (witness): the statement at a controller that is idle at entry
and stuck busy afterwards, with a valid 128-bit SRAM write metadata. -/
theorem ks_c7_witness :
    (KS_Open envBusyTail).result = KSResult.errTimeout ∧
    (KS_Read envBusyTail KS_MEM_Type.KS_SRAM 0 8).result = KSResult.errTimeout ∧
    Option.map OpRun.result (KS_Write envBusyTail KS_MEM_Type.KS_SRAM 0 (fun _ => 0)) =
      some KSResult.errTimeout ∧
    (KS_WriteOTP envBusyTail 0 0 (fun _ => 0)).result = KSResult.errTimeout ∧
    (KS_EraseKey envBusyTail 0).result = KSResult.errTimeout ∧
    (KS_EraseOTPKey envBusyTail 0).result = KSResult.errTimeout ∧
    (KS_LockOTPKey envBusyTail 0).result = KSResult.errTimeout ∧
    (KS_EraseAll envBusyTail KS_MEM_Type.KS_SRAM).result = KSResult.errTimeout ∧
    (KS_RevokeKey envBusyTail KS_MEM_Type.KS_SRAM 0).result = KSResult.errTimeout ∧
    (KS_ToggleSRAM envBusyTail).result = KSResult.errTimeout := by
  have h := ks_c7_timeout envBusyTail KS_MEM_Type.KS_SRAM 0 0 8 (fun _ => 0)
    rfl (fun t ht => decide_eq_true ht)
  exact ⟨h.1, h.2.1, h.2.2.1 4 (by decide) (by decide) (by decide),
    h.2.2.2.1 (by decide), h.2.2.2.2.1, h.2.2.2.2.2.1, h.2.2.2.2.2.2.1,
    h.2.2.2.2.2.2.2.1, h.2.2.2.2.2.2.2.2.1, h.2.2.2.2.2.2.2.2.2⟩

/-- C8 (counterexample): the claim quantifies over every
hardware-interacting operation, but `KS_Open` performs no error-flag
check: on a controller that completes every wait with the latched error
flag set throughout (initialization rising after the strobe), `KS_Open`
issues its initialization command, sees busy clear, and still returns
success, not HardwareFailure. -/
theorem ks_c8_counterexample :
    (∀ u : Nat, (envEifAll.sts u).eif = true) ∧
    (KS_Open envEifAll).result = KSResult.ok 0 ∧
    KSResult.ok 0 ≠ KSResult.errFail :=
  ⟨fun _ => rfl, by decide, by decide⟩

/-- C8 (amended): for every command-issuing operation except `KS_Open`,
if the busy flag clears at every wait and the latched error flag is
observed set at the post-wait check, the operation returns the
HardwareFailure error even though busy cleared normally (`KS_Open`
checks no error flag and is excluded).  For `KS_Write` and `KS_WriteOTP`
the parameter checks must pass for the command to be issued. -/
theorem ks_c8_amended (env : KSEnv) (eMemType : KS_MEM_Type) (i32KeyIdx : Int)
    (u32Meta : Nat) (u32WordCnt : Nat) (au32Key : Nat → Nat)
    (Hb : ∀ u, (env.sts u).busy = false) (He : ∀ u, (env.sts u).eif = true) :
    (KS_Read env eMemType i32KeyIdx u32WordCnt).result = KSResult.errFail ∧
    (∀ n, KS_GetKeyWordCnt? u32Meta = some n → 0 < n →
      ¬(eMemType = KS_MEM_Type.KS_OTP ∧ 8 < n) →
      Option.map OpRun.result (KS_Write env eMemType u32Meta au32Key) =
        some KSResult.errFail) ∧
    (sizeField u32Meta ≤ KS_META_256_code →
      (KS_WriteOTP env i32KeyIdx u32Meta au32Key).result = KSResult.errFail) ∧
    (KS_EraseKey env i32KeyIdx).result = KSResult.errFail ∧
    (KS_EraseOTPKey env i32KeyIdx).result = KSResult.errFail ∧
    (KS_LockOTPKey env i32KeyIdx).result = KSResult.errFail ∧
    (KS_EraseAll env eMemType).result = KSResult.errFail ∧
    (KS_RevokeKey env eMemType i32KeyIdx).result = KSResult.errFail ∧
    (KS_ToggleSRAM env).result = KSResult.errFail := by
  have hbne : ¬(env.sts 0).busy = true := by simp [Hb 0]
  have hclear : busyWaitLoop env 1 KS_TIMEOUT = some 2 := busyWaitLoop_clear (Hb 1) _
  refine ⟨?_, ?_, ?_, ?_, ?_, ?_, ?_, ?_, ?_⟩
  · rw [KS_Read, if_neg hbne]
    by_cases hpos : 0 < toInt32 u32WordCnt
    · rw [readLoop_run Hb (toInt32 u32WordCnt).toNat _ le_rfl hpos]
      simp [He]
    · rw [readLoop]
      simp only [hclear]
      rw [dif_neg (by omega), if_pos (He 2)]
  · intro n hn h0 hotp
    have hn0 : ¬n = 0 := by omega
    rw [KS_Write, if_neg hbne]
    simp only [hn, hn0, if_false, hotp, if_neg]
    rw [Option.map_some']
    rw [writeLoop_fail Hb He ((n : Int)).toNat _ le_rfl]
  · intro hs
    rw [KS_WriteOTP, if_neg hbne]
    simp only [if_neg (show ¬KS_META_256_code < sizeField u32Meta by omega)]
    simp [hclear, He 2]
  · rw [KS_EraseKey, if_neg hbne]
    simp [hclear, He 2]
  · rw [KS_EraseOTPKey, if_neg hbne]
    simp [hclear, He 2]
  · rw [KS_LockOTPKey, if_neg hbne]
    simp [hclear, He 2]
  · rw [KS_EraseAll, if_neg hbne]
    simp [hclear, He 2]
  · rw [KS_RevokeKey, if_neg hbne]
    simp [hclear, He 2]
  · rw [KS_ToggleSRAM, if_neg hbne]
    simp [hclear, He 2]

/-- C8 (witness): the amended statement at a never-busy controller whose
error flag is latched at every poll. -/
theorem ks_c8_witness :
    (KS_Read envEifAll KS_MEM_Type.KS_SRAM 0 8).result = KSResult.errFail ∧
    Option.map OpRun.result (KS_Write envEifAll KS_MEM_Type.KS_SRAM 0 (fun _ => 0)) =
      some KSResult.errFail ∧
    (KS_WriteOTP envEifAll 0 0 (fun _ => 0)).result = KSResult.errFail ∧
    (KS_EraseKey envEifAll 0).result = KSResult.errFail ∧
    (KS_EraseOTPKey envEifAll 0).result = KSResult.errFail ∧
    (KS_LockOTPKey envEifAll 0).result = KSResult.errFail ∧
    (KS_EraseAll envEifAll KS_MEM_Type.KS_SRAM).result = KSResult.errFail ∧
    (KS_RevokeKey envEifAll KS_MEM_Type.KS_SRAM 0).result = KSResult.errFail ∧
    (KS_ToggleSRAM envEifAll).result = KSResult.errFail := by
  have h := ks_c8_amended envEifAll KS_MEM_Type.KS_SRAM 0 0 8 (fun _ => 0)
    (fun _ => rfl) (fun _ => rfl)
  exact ⟨h.1, h.2.1 4 (by decide) (by decide) (by decide), h.2.2.1 (by decide),
    h.2.2.2.1, h.2.2.2.2.1, h.2.2.2.2.2.1, h.2.2.2.2.2.2.1,
    h.2.2.2.2.2.2.2.1, h.2.2.2.2.2.2.2.2⟩

/-- C6 (counterexample): the claim quantifies over every command-issuing
operation and cites `KS_EraseOTPKey`, but `KS_EraseOTPKey`'s control
write is the raw constant `KS_OP_ERASE | KS_CTL_START_Msk`: with the
silent and scramble bits set in the control register at entry, the
strobe it writes has both bits cleared. -/
theorem ks_c6_counterexample :
    envSilentOn.ctl0.silent = true ∧
    ctlWrites (KS_EraseOTPKey envSilentOn 0).writes =
      [⟨KS_OP_ERASE, true, false, false, false, false⟩] ∧
    ¬(∀ c ∈ ctlWrites (KS_EraseOTPKey envSilentOn 0).writes,
        c.silent = envSilentOn.ctl0.silent) :=
  ⟨rfl, by decide, by decide⟩

/-- C6 (amended): the command strobes of `KS_Read`, `KS_Write`,
`KS_WriteOTP`, `KS_EraseKey`, `KS_EraseAll`, `KS_RevokeKey` and
`KS_ToggleSRAM` preserve the silent and scramble mode bits found in the
control register at entry; `KS_EraseOTPKey`, `KS_LockOTPKey` and
`KS_Open`'s initialization strobe instead write the control register
with both mode bits cleared. -/
theorem ks_c6_amended (env : KSEnv) (eMemType : KS_MEM_Type) (i32KeyIdx : Int)
    (u32Meta : Nat) (u32WordCnt : Nat) (au32Key : Nat → Nat) :
    (∀ c ∈ ctlWrites (KS_Read env eMemType i32KeyIdx u32WordCnt).writes,
      c.silent = env.ctl0.silent ∧ c.scmb = env.ctl0.scmb) ∧
    (∀ r, KS_Write env eMemType u32Meta au32Key = some r →
      ∀ c ∈ ctlWrites r.writes,
        c.silent = env.ctl0.silent ∧ c.scmb = env.ctl0.scmb) ∧
    (∀ c ∈ ctlWrites (KS_WriteOTP env i32KeyIdx u32Meta au32Key).writes,
      c.silent = env.ctl0.silent ∧ c.scmb = env.ctl0.scmb) ∧
    (∀ c ∈ ctlWrites (KS_EraseKey env i32KeyIdx).writes,
      c.silent = env.ctl0.silent ∧ c.scmb = env.ctl0.scmb) ∧
    (∀ c ∈ ctlWrites (KS_EraseAll env eMemType).writes,
      c.silent = env.ctl0.silent ∧ c.scmb = env.ctl0.scmb) ∧
    (∀ c ∈ ctlWrites (KS_RevokeKey env eMemType i32KeyIdx).writes,
      c.silent = env.ctl0.silent ∧ c.scmb = env.ctl0.scmb) ∧
    (∀ c ∈ ctlWrites (KS_ToggleSRAM env).writes,
      c.silent = env.ctl0.silent ∧ c.scmb = env.ctl0.scmb) ∧
    (∀ c ∈ ctlWrites (KS_EraseOTPKey env i32KeyIdx).writes,
      c.silent = false ∧ c.scmb = false) ∧
    (∀ c ∈ ctlWrites (KS_LockOTPKey env i32KeyIdx).writes,
      c.silent = false ∧ c.scmb = false) ∧
    (∀ c ∈ ctlWrites (KS_Open env).writes,
      c.silent = false ∧ c.scmb = false) := by
  refine ⟨?_, ?_, ?_, ?_, ?_, ?_, ?_, ?_, ?_, ?_⟩
  · intro c hc
    rw [KS_Read] at hc
    by_cases hb : (env.sts 0).busy = true
    · rw [if_pos hb] at hc
      simp [ctlWrites] at hc
    · rw [if_neg hb] at hc
      rcases readLoop_ctl (toInt32 u32WordCnt).toNat _ le_rfl _ _ _ _ _ _ _ _ hc with
        hmem | hpres
      · simp [ctlWrites, List.filterMap] at hmem
      · exact hpres
  · intro r hr c hc
    rw [KS_Write] at hr
    by_cases hb : (env.sts 0).busy = true
    · rw [if_pos hb] at hr
      cases hr
      simp [ctlWrites] at hc
    · rw [if_neg hb] at hr
      cases hlk : KS_GetKeyWordCnt? u32Meta with
      | none =>
        simp only [hlk] at hr
        exact absurd hr (by simp)
      | some n =>
        simp only [hlk] at hr
        by_cases hn0 : n = 0
        · rw [if_pos hn0] at hr
          cases hr
          simp [ctlWrites, List.filterMap] at hc
        · rw [if_neg hn0] at hr
          by_cases hotp : eMemType = KS_MEM_Type.KS_OTP ∧ 8 < n
          · rw [if_pos hotp] at hr
            cases hr
            simp [ctlWrites, List.filterMap] at hc
          · rw [if_neg hotp] at hr
            cases hr
            rcases writeLoop_ctl ((n : Int)).toNat _ le_rfl _ _ _ _ _ _ hc with
              hmem | hpres
            · simp [ctlWrites, List.filterMap] at hmem
            · exact hpres
  · intro c hc
    rw [KS_WriteOTP] at hc
    by_cases hb : (env.sts 0).busy = true
    · rw [if_pos hb] at hc
      simp [ctlWrites] at hc
    · rw [if_neg hb] at hc
      by_cases hs : KS_META_256_code < sizeField u32Meta
      · rw [if_pos hs] at hc
        simp [ctlWrites, List.filterMap] at hc
      · rw [if_neg hs] at hc
        have hkw : ∀ w ∈ (List.range (otpCntTbl.getD (sizeField u32Meta) 0)).map
            (fun i => RegWrite.wKEY i (au32Key i)), ∀ c' : CTLval,
            w ≠ RegWrite.wCTL c' := by
          intro w hw c' hcw
          rcases List.mem_map.mp hw with ⟨i, _, hi⟩
          rw [← hi] at hcw
          exact RegWrite.noConfusion hcw
        have hchunk := ctlWrites_writeChunk
          [RegWrite.wMETADATA (MetaVal.forWriteOTP u32Meta i32KeyIdx)] _ hkw
          (writeCtl false env.ctl0.silent env.ctl0.scmb)
        cases hw : busyWaitLoop env 1 KS_TIMEOUT with
        | none =>
          simp only [hw, hchunk] at hc
          simp [ctlWrites, List.filterMap] at hc
          subst hc
          exact ⟨rfl, rfl⟩
        | some t1 =>
          simp only [hw] at hc
          by_cases he : (env.sts t1).eif = true
          · simp only [if_pos he, hchunk] at hc
            simp [ctlWrites, List.filterMap] at hc
            subst hc
            exact ⟨rfl, rfl⟩
          · simp only [if_neg he, hchunk] at hc
            simp [ctlWrites, List.filterMap] at hc
            subst hc
            exact ⟨rfl, rfl⟩
  · intro c hc
    rw [KS_EraseKey] at hc
    by_cases hb : (env.sts 0).busy = true
    · rw [if_pos hb] at hc
      simp [ctlWrites] at hc
    · rw [if_neg hb] at hc
      cases hw : busyWaitLoop env 1 KS_TIMEOUT with
      | none =>
        simp only [hw, mem_ctlWrites_three, List.mem_singleton] at hc
        subst hc
        exact ⟨rfl, rfl⟩
      | some t1 =>
        simp only [hw] at hc
        by_cases he : (env.sts t1).eif = true
        · simp only [if_pos he, mem_ctlWrites_three, List.mem_singleton] at hc
          subst hc
          exact ⟨rfl, rfl⟩
        · simp only [if_neg he, mem_ctlWrites_three, List.mem_singleton] at hc
          subst hc
          exact ⟨rfl, rfl⟩
  · intro c hc
    rw [KS_EraseAll] at hc
    by_cases hb : (env.sts 0).busy = true
    · rw [if_pos hb] at hc
      simp [ctlWrites] at hc
    · rw [if_neg hb] at hc
      cases hw : busyWaitLoop env 1 KS_TIMEOUT with
      | none =>
        simp only [hw, mem_ctlWrites_three, List.mem_singleton] at hc
        subst hc
        exact ⟨rfl, rfl⟩
      | some t1 =>
        simp only [hw] at hc
        by_cases he : (env.sts t1).eif = true
        · simp only [if_pos he, mem_ctlWrites_three, List.mem_singleton] at hc
          subst hc
          exact ⟨rfl, rfl⟩
        · simp only [if_neg he, mem_ctlWrites_three, List.mem_singleton] at hc
          subst hc
          exact ⟨rfl, rfl⟩
  · intro c hc
    rw [KS_RevokeKey] at hc
    by_cases hb : (env.sts 0).busy = true
    · rw [if_pos hb] at hc
      simp [ctlWrites] at hc
    · rw [if_neg hb] at hc
      cases hw : busyWaitLoop env 1 KS_TIMEOUT with
      | none =>
        simp only [hw, mem_ctlWrites_three, List.mem_singleton] at hc
        subst hc
        exact ⟨rfl, rfl⟩
      | some t1 =>
        simp only [hw] at hc
        by_cases he : (env.sts t1).eif = true
        · simp only [if_pos he, mem_ctlWrites_three, List.mem_singleton] at hc
          subst hc
          exact ⟨rfl, rfl⟩
        · simp only [if_neg he, mem_ctlWrites_three, List.mem_singleton] at hc
          subst hc
          exact ⟨rfl, rfl⟩
  · intro c hc
    rw [KS_ToggleSRAM] at hc
    by_cases hb : (env.sts 0).busy = true
    · rw [if_pos hb] at hc
      simp [ctlWrites] at hc
    · rw [if_neg hb] at hc
      cases hw : busyWaitLoop env 1 KS_TIMEOUT with
      | none =>
        simp only [hw, mem_ctlWrites_three, List.mem_singleton] at hc
        subst hc
        exact ⟨rfl, rfl⟩
      | some t1 =>
        simp only [hw] at hc
        by_cases he : (env.sts t1).eif = true
        · simp only [if_pos he, mem_ctlWrites_three, List.mem_singleton] at hc
          subst hc
          exact ⟨rfl, rfl⟩
        · simp only [if_neg he, mem_ctlWrites_three, List.mem_singleton] at hc
          subst hc
          exact ⟨rfl, rfl⟩
  · intro c hc
    rw [KS_EraseOTPKey] at hc
    by_cases hb : (env.sts 0).busy = true
    · rw [if_pos hb] at hc
      simp [ctlWrites] at hc
    · rw [if_neg hb] at hc
      cases hw : busyWaitLoop env 1 KS_TIMEOUT with
      | none =>
        simp only [hw, mem_ctlWrites_three, List.mem_singleton] at hc
        subst hc
        exact ⟨rfl, rfl⟩
      | some t1 =>
        simp only [hw] at hc
        by_cases he : (env.sts t1).eif = true
        · simp only [if_pos he, mem_ctlWrites_three, List.mem_singleton] at hc
          subst hc
          exact ⟨rfl, rfl⟩
        · simp only [if_neg he, mem_ctlWrites_three, List.mem_singleton] at hc
          subst hc
          exact ⟨rfl, rfl⟩
  · intro c hc
    rw [KS_LockOTPKey] at hc
    by_cases hb : (env.sts 0).busy = true
    · rw [if_pos hb] at hc
      simp [ctlWrites] at hc
    · rw [if_neg hb] at hc
      cases hw : busyWaitLoop env 1 KS_TIMEOUT with
      | none =>
        simp only [hw, mem_ctlWrites_three, List.mem_singleton] at hc
        subst hc
        exact ⟨rfl, rfl⟩
      | some t1 =>
        simp only [hw] at hc
        by_cases he : (env.sts t1).eif = true
        · simp only [if_pos he, mem_ctlWrites_three, List.mem_singleton] at hc
          subst hc
          exact ⟨rfl, rfl⟩
        · simp only [if_neg he, mem_ctlWrites_three, List.mem_singleton] at hc
          subst hc
          exact ⟨rfl, rfl⟩
  · intro c hc
    rw [KS_Open] at hc
    by_cases hi : (env.sts 0).initdone = true
    · rw [if_pos hi] at hc
      cases hw : busyWaitLoop env 1 KS_TIMEOUT with
      | none =>
        simp only [hw] at hc
        simp [ctlWrites] at hc
      | some t1 =>
        simp only [hw] at hc
        simp [ctlWrites] at hc
    · rw [if_neg hi] at hc
      cases hw : busyWaitLoop env 1 KS_TIMEOUT with
      | none =>
        simp only [hw] at hc
        simp [ctlWrites] at hc
      | some t1 =>
        simp only [hw] at hc
        cases hw2 : initWaitLoop env t1 KS_TIMEOUT with
        | none =>
          simp only [hw2] at hc
          simp [ctlWrites, List.filterMap] at hc
          subst hc
          exact ⟨rfl, rfl⟩
        | some t2 =>
          simp only [hw2] at hc
          cases hw3 : busyWaitLoop env t2 KS_TIMEOUT with
          | none =>
            simp only [hw3] at hc
            simp [ctlWrites, List.filterMap] at hc
            subst hc
            exact ⟨rfl, rfl⟩
          | some t3 =>
            simp only [hw3] at hc
            simp [ctlWrites, List.filterMap] at hc
            subst hc
            exact ⟨rfl, rfl⟩

/-- C6 (witness): the `KS_EraseKey` strobe on a controller whose control
register has silent and scramble set keeps both bits, and the
`KS_EraseOTPKey` strobe on the same controller clears them. -/
theorem ks_c6_witness :
    ((⟨KS_OP_ERASE, true, false, false, true, true⟩ : CTLval).silent =
        envSilentOn.ctl0.silent ∧
      (⟨KS_OP_ERASE, true, false, false, true, true⟩ : CTLval).scmb =
        envSilentOn.ctl0.scmb) ∧
    ((⟨KS_OP_ERASE, true, false, false, false, false⟩ : CTLval).silent = false ∧
      (⟨KS_OP_ERASE, true, false, false, false, false⟩ : CTLval).scmb = false) :=
  ⟨(ks_c6_amended envSilentOn KS_MEM_Type.KS_SRAM 0 0 8 (fun _ => 0)).2.2.2.1
      ⟨KS_OP_ERASE, true, false, false, true, true⟩ (by decide),
   (ks_c6_amended envSilentOn KS_MEM_Type.KS_SRAM 0 0 8 (fun _ => 0)).2.2.2.2.2.2.2.1
      ⟨KS_OP_ERASE, true, false, false, false, false⟩ (by decide)⟩

/-- C10 (witness): on a stuck-busy controller the wait exhausts exactly
its `KS_TIMEOUT` polls and times out; on an idle controller it finishes
within the budget. -/
theorem ks_c10_witness :
    busyWaitLoop envBusyAll 0 KS_TIMEOUT = none ∧
    (envBusyAll.sts (0 + 3)).busy = true ∧
    busyWaitLoop envIdle 5 KS_TIMEOUT = some 6 ∧
    6 ≤ 5 + KS_TIMEOUT :=
  ⟨by decide,
   (ks_c10_bounded_polls envBusyAll 0).2.1 (by decide) 3 (by decide),
   by decide,
   (ks_c10_bounded_polls envIdle 5).1 6 (by decide)⟩

end KSdrv
